import Mathlib

/-!
Verification of the transformation job runner.

This file gives a shallow embedding of the core of the repository:

* `job.runner.py` — `run_job`, `execute_transformation`, the dynamic
  class-resolution routine, and `camel_to_snake`;
* `utils/file_manager.py` — `s3_to_local`, `download_from_s3`,
  `load_parser_from_s3`;
* the base class in the `parsers` package — `run_operation` and
  `get_available_operations`.

Python strings are modelled as lists of character code points
(identifiers and paths in this system are ASCII).  Python exceptions are
modelled with `Except`: a raised exception is an `Except.error` value and
a `try/except` block is a `match` on that value.  Dictionaries with a
fixed key set are records of `Option` fields (a missing key raises
`KeyError`, i.e. yields the `none` branch).  External effects — the S3
client and the dynamic import machinery — are parameters of the
embedding: an S3 download either yields the local file path it would
produce or raises, and a registry maps a module name and class name to a
loadable class, exactly the interface the source consumes.
-/

/-- Python strings, modelled as lists of character code points. -/
abbrev Str := List Nat

/-- Code points of a Lean string literal; used to write down the concrete
Python strings appearing in the source and in the job definitions. -/
def strCodes (s : String) : Str := s.data.map Char.toNat

/-- Membership test of the regex character class `[A-Z]` (codes 65–90). -/
def isUp (c : Nat) : Bool := decide (65 ≤ c ∧ c ≤ 90)

/-- Membership test of the regex character class `[a-z]` (codes 97–122). -/
def isLo (c : Nat) : Bool := decide (97 ≤ c ∧ c ≤ 122)

/-- Membership test of the regex character class `[0-9]` (codes 48–57). -/
def isDig (c : Nat) : Bool := decide (48 ≤ c ∧ c ≤ 57)

/-- Model of `str.lower()` on a single character: an ASCII capital letter is
shifted to its lowercase form (code + 32); anything else is unchanged. -/
def toLowerA (c : Nat) : Nat := if isUp c then c + 32 else c

/-- First substitution pass of `camel_to_snake`:
`re.sub(r'(.)([A-Z][a-z]+)', r'\1_\2', name)`.
Scanning left to right, at the leftmost position where any character other
than a newline (code 10) is followed by an uppercase letter and a nonempty
greedy run of lowercase letters, an underscore (code 95) is inserted after
that character; scanning resumes after the matched lowercase run. -/
def sub1 : List Nat → List Nat
  | c :: u :: l :: rest =>
    if (c != 10) && isUp u && isLo l then
      c :: 95 :: u :: (l :: rest).takeWhile isLo ++ sub1 ((l :: rest).dropWhile isLo)
    else
      c :: sub1 (u :: l :: rest)
  | s => s
termination_by s => s.length
decreasing_by
  · have h := (List.dropWhile_sublist (l := l :: rest) isLo).length_le
    simp at h ⊢
    omega
  · simp

/-- Second substitution pass of `camel_to_snake`:
`re.sub(r'([a-z0-9])([A-Z])', r'\1_\2', s1)`.
An underscore is inserted between every lowercase letter or digit and an
immediately following uppercase letter; the two matched characters are
consumed and scanning resumes after them. -/
def sub2 : List Nat → List Nat
  | c :: u :: rest =>
    if (isLo c || isDig c) && isUp u then c :: 95 :: u :: sub2 rest
    else c :: sub2 (u :: rest)
  | s => s

/-- Embeds `camel_to_snake` of `job.runner.py`: the two regex substitution
passes followed by `.lower()`. -/
def camel_to_snake (name : Str) : Str := (sub2 (sub1 name)).map toLowerA

/-- Embeds `s3_to_local` of `utils/file_manager.py`:
`s3_path.replace("s3://", "s3/")`, i.e. every occurrence of the pattern
`s3://` (codes 115, 51, 58, 47, 47) is rewritten to `s3/` (codes 115, 51,
47); occurrences are found left to right and are not rescanned. -/
def s3_to_local : List Nat → List Nat
  | 115 :: 51 :: 58 :: 47 :: 47 :: rest => 115 :: 51 :: 47 :: s3_to_local rest
  | c :: rest => c :: s3_to_local rest
  | [] => []

/-- Lowercasing an ASCII capital never yields an ASCII capital. -/
theorem isUp_toLowerA (c : Nat) : isUp (toLowerA c) = false := by
  unfold toLowerA
  cases hc : isUp c
  · simp [hc]
  · rw [if_pos (by simp [hc])]
    simp only [isUp, decide_eq_true_eq] at hc
    simp only [isUp]
    exact decide_eq_false (by omega)

/-- Mapping `toLowerA` over a string without ASCII capitals is the identity. -/
theorem map_toLowerA_id (s : Str) (h : ∀ c ∈ s, isUp c = false) :
    s.map toLowerA = s := by
  induction s with
  | nil => rfl
  | cons a t ih =>
    have ha : isUp a = false := h a (by simp)
    have hrec := ih (fun c hc => h c (by simp [hc]))
    simp only [List.map_cons, hrec, List.cons.injEq, and_true]
    unfold toLowerA
    rw [if_neg (by simp [ha])]

/-- The first substitution pass fixes strings without ASCII capitals. -/
theorem sub1_id (s : Str) (h : ∀ c ∈ s, isUp c = false) : sub1 s = s := by
  induction s using sub1.induct with
  | case1 c u l rest hcond ih =>
    exfalso
    have hu : isUp u = false := h u (by simp)
    simp [hu] at hcond
  | case2 c u l rest hcond ih =>
    have hrec := ih (fun d hd => h d (by simp at hd ⊢; tauto))
    rw [sub1.eq_def]
    simp only [Bool.not_eq_true] at hcond
    simp [hcond, hrec]
  | case3 s hs =>
    rw [sub1.eq_def]
    rcases s with _ | ⟨a, _ | ⟨b, _ | ⟨c, t⟩⟩⟩
    · rfl
    · rfl
    · rfl
    · exact absurd rfl (by intro h'; exact hs a b c t h')

/-- The second substitution pass fixes strings without ASCII capitals. -/
theorem sub2_id (s : Str) (h : ∀ c ∈ s, isUp c = false) : sub2 s = s := by
  induction s using sub2.induct with
  | case1 c u rest hcond ih =>
    exfalso
    have hu : isUp u = false := h u (by simp)
    simp [hu] at hcond
  | case2 c u rest hcond ih =>
    have hrec := ih (fun d hd => h d (by simp at hd ⊢; tauto))
    rw [sub2.eq_def]
    simp only [Bool.not_eq_true] at hcond
    simp [hcond, hrec]
  | case3 s hs =>
    rw [sub2.eq_def]
    rcases s with _ | ⟨a, _ | ⟨b, t⟩⟩
    · rfl
    · rfl
    · exact absurd rfl (by intro h'; exact hs a b t h')

/-- Every character of a `camel_to_snake` result is outside `[A-Z]`. -/
theorem camel_to_snake_noUp (s : Str) :
    ∀ c ∈ camel_to_snake s, isUp c = false := by
  intro c hc
  unfold camel_to_snake at hc
  rcases List.mem_map.mp hc with ⟨d, _, hd⟩
  rw [← hd]
  exact isUp_toLowerA d

/-- Claim C6: the class-name-to-module-name conversion `camel_to_snake` is
idempotent.  Any string already in the converted form — in particular
containing no ASCII capital letter, as every lowercase underscore-separated
name does — is a fixed point, and applying the conversion to any output of
the conversion yields that output again. -/
theorem camel_to_snake_idempotent (s : Str) :
    ((∀ c ∈ s, isUp c = false) → camel_to_snake s = s) ∧
      camel_to_snake (camel_to_snake s) = camel_to_snake s := by
  constructor
  · intro h
    unfold camel_to_snake
    rw [sub1_id s h, sub2_id s h, map_toLowerA_id s h]
  · have h := camel_to_snake_noUp s
    rw [show camel_to_snake (camel_to_snake s) =
          (sub2 (sub1 (camel_to_snake s))).map toLowerA from rfl]
    rw [sub1_id _ h, sub2_id _ h, map_toLowerA_id _ h]

/-- Witness for C6 at the concrete already-converted module identifier
`xml_to_csv_parser`: it has no capital letter and converting it changes
nothing. -/
theorem camel_to_snake_idempotent_witness :
    (∀ c ∈ strCodes ("xml_to_csv_parser"), isUp c = false) ∧
      camel_to_snake (strCodes ("xml_to_csv_parser")) = strCodes ("xml_to_csv_parser") :=
  ⟨by decide, (camel_to_snake_idempotent (strCodes ("xml_to_csv_parser"))).1 (by decide)⟩

/-- Claim C7: the conversion maps the class name `HTMLParserV2` to the module
identifier `html_parser_v2` — the last capital of the acronym run `HTML` is
treated as the start of the next word because a lowercase letter follows. -/
theorem camel_to_snake_html_example :
    camel_to_snake (strCodes ("HTMLParserV2")) = strCodes ("html_parser_v2") := by
  simp [camel_to_snake, strCodes, sub1, sub2, isUp, isLo, isDig, toLowerA]

/-- Replacement step of `s3_to_local` at a position where the pattern `s3://`
does not start: the head character is copied unchanged. -/
theorem s3_step (c : Nat) (l : List Nat)
    (h : ∀ t, c :: l ≠ 115 :: 51 :: 58 :: 47 :: 47 :: t) :
    s3_to_local (c :: l) = c :: s3_to_local l := by
  rw [s3_to_local.eq_def]
  split
  · next t heq => exact absurd heq (by intro hq; exact h _ hq)
  · next a b hb heq =>
    injection heq with h1 h2
    subst h1
    subst h2
    rfl
  · next heq => exact absurd heq (by simp)

/-- The replacement in `s3_to_local` reflects prefixes that avoid the
character `s` (code 115): such a leading segment of the output is already a
leading segment of the input. -/
theorem s3_keeps (r : List Nat) :
    ∀ p, 115 ∉ p → (∃ t, s3_to_local r = p ++ t) → ∃ t, r = p ++ t := by
  induction r using s3_to_local.induct with
  | case1 rest ih =>
    intro p hp hpre
    rcases p with _ | ⟨a, p'⟩
    · exact ⟨_, rfl⟩
    · exfalso
      rcases hpre with ⟨t, ht⟩
      rw [show s3_to_local (115 :: 51 :: 58 :: 47 :: 47 :: rest) =
            115 :: 51 :: 47 :: s3_to_local rest from rfl] at ht
      have ha : a = 115 := by
        have := congrArg List.head? ht
        simpa using this.symm
      exact hp (by simp [ha])
  | case2 c rest hx ih =>
    intro p hp hpre
    rcases p with _ | ⟨a, p'⟩
    · exact ⟨_, rfl⟩
    · have hstep : s3_to_local (c :: rest) = c :: s3_to_local rest := by
        refine s3_step c rest ?_
        intro t hq
        injection hq with h1 h2
        exact hx t h1 h2
      rcases hpre with ⟨t, ht⟩
      rw [hstep] at ht
      injection ht with h1 h2
      rcases ih p' (fun hm => hp (by simp [hm])) ⟨t, h2⟩ with ⟨t', ht'⟩
      exact ⟨t', by rw [h1, ht']; rfl⟩
  | case3 =>
    intro p hp hpre
    rcases hpre with ⟨t, ht⟩
    rcases List.append_eq_nil.mp ht.symm with ⟨hp0, -⟩
    exact ⟨[], by simp [hp0]⟩

/-- Applying `s3_to_local` twice is the same as applying it once. -/
theorem s3_to_local_idem (r : List Nat) :
    s3_to_local (s3_to_local r) = s3_to_local r := by
  induction r using s3_to_local.induct with
  | case1 rest ih =>
    rw [show s3_to_local (115 :: 51 :: 58 :: 47 :: 47 :: rest) =
          115 :: 51 :: 47 :: s3_to_local rest from rfl]
    rw [show s3_to_local (115 :: 51 :: 47 :: s3_to_local rest) =
          115 :: 51 :: 47 :: s3_to_local (s3_to_local rest) from rfl]
    rw [ih]
  | case2 c rest hx ih =>
    have hstep : s3_to_local (c :: rest) = c :: s3_to_local rest := by
      refine s3_step c rest ?_
      intro t hq
      injection hq with h1 h2
      exact hx t h1 h2
    rw [hstep]
    have hnp : ∀ t, c :: s3_to_local rest ≠ 115 :: 51 :: 58 :: 47 :: 47 :: t := by
      intro t hq
      injection hq with h1 h2
      have hpre : ∃ t', s3_to_local rest = [51, 58, 47, 47] ++ t' := ⟨t, by simpa using h2⟩
      rcases s3_keeps rest [51, 58, 47, 47] (by decide) hpre with ⟨t', ht'⟩
      exact hx t' h1 (by simpa using ht')
    rw [s3_step _ _ hnp, ih]
  | case3 => rfl

/-- Claim C9: the artifact-reference resolution `s3_to_local` is a pure,
deterministic string transformation — equal references always yield equal
local paths — and it is idempotent: resolving a reference twice yields the
same local path as resolving it once. -/
theorem s3_to_local_deterministic_idempotent (r1 r2 : Str) (h : r1 = r2) :
    s3_to_local r1 = s3_to_local r2 ∧
      s3_to_local (s3_to_local r1) = s3_to_local r1 :=
  ⟨by rw [h], s3_to_local_idem r1⟩

/-- Witness for C9 at the concrete reference `s3://bucket/data.xml`. -/
theorem s3_to_local_deterministic_idempotent_witness :
    strCodes ("s3://bucket/data.xml") = strCodes ("s3://bucket/data.xml") ∧
      (s3_to_local (strCodes ("s3://bucket/data.xml")) =
          s3_to_local (strCodes ("s3://bucket/data.xml")) ∧
        s3_to_local (s3_to_local (strCodes ("s3://bucket/data.xml"))) =
          s3_to_local (strCodes ("s3://bucket/data.xml"))) :=
  ⟨rfl, s3_to_local_deterministic_idempotent _ _ rfl⟩

/-- Name of the dispatcher member looked up by `hasattr` in the executor. -/
def runOperationName : Str := strCodes ("run_operation")

/-- Name of the mandatory default operation of the base contract. -/
def processName : Str := strCodes ("process")

/-- Key of the remote-resolution bucket option in a transformation's kwargs. -/
def scriptsBucketKey : Str := strCodes ("scripts_bucket")

/-- Key of the remote-resolution path option in a transformation's kwargs. -/
def scriptsPathKey : Str := strCodes ("scripts_path")

/-- Source-file extension appended to the module name when building the S3
object key. -/
def pyExt : Str := strCodes (".py")

/-- Module name of the shared base-contract source fetched before the named
variant's source. -/
def baseFileName : Str := strCodes ("base_parser")

/-- Keyword-argument mappings (the per-transformation `kwargs`), modelled as
association lists from option names to string values; the only values the
core ever reads (`scripts_bucket`, `scripts_path`) are strings. -/
abbrev Options := List (Str × Str)

/-- Kinds of Python exception raised by the modelled code paths. -/
inductive PyExn where
  | keyError
  | valueError
  | notImplementedError
  | typeError
  | attributeError
  | importError
  | noCredentials
  | clientError
  | execError
deriving DecidableEq

/-- Runtime values returned by parser operations: the two booleans, `None`,
or any other object (tagged by a string).  The executor only ever inspects
identity with `False`. -/
inductive RV where
  | pyFalse
  | pyTrue
  | pyNone
  | other (s : Str)
deriving DecidableEq

/-- An attribute of a parser instance: a callable member (calling it with
keyword arguments returns a value or raises), or a non-callable value. -/
inductive Attr where
  | callable (call : Options → Except PyExn RV)
  | plain

/-- A parser instance as seen by the executor: the state stored at
construction (the base class stores the source file and output directory and
discards the remaining kwargs; a custom class may store them), the optional
name-based dispatcher `run_operation`, and its remaining members by name. -/
structure PyObj where
  source_file : Str
  output_directory : Str
  init_kwargs : Options
  run_op : Option (Str → Except PyExn RV)
  attrs : Str → Option Attr

/-- A loadable parser class: constructing it with a source file, an output
directory and keyword arguments yields an instance or raises. -/
structure ParserClass where
  construct : Str → Str → Options → Except PyExn PyObj

/-- Possible results of the parser-creation routine: Python `None`, Python
`False`, or a parser instance. -/
inductive ParserVal where
  | vNone
  | vFalse
  | obj (p : PyObj)

/-- External collaborators of remote resolution: `fetch bucket key` models
the S3 download (returning the local file path it writes, or raising a
credentials/client error), and `classOf path name` models executing the
downloaded module and reading the named class from it (raising on a load
error, `none` when the module has no such class). -/
structure RemoteEnv where
  fetch : Str → Str → Except PyExn Str
  classOf : Str → Str → Except PyExn (Option ParserClass)

/-- Embeds `download_from_s3` of `utils/file_manager.py`: read the
`scripts_bucket` and `scripts_path` options (a missing key raises, wrapped
into a generic exception by the function's own handler), build the object
key `scripts_path + parser_file_name + ".py"`, and download it. -/
def download_from_s3 (fetch : Str → Str → Except PyExn Str)
    (parser_file_name : Str) (kwargs : Options) : Except PyExn Str :=
  match kwargs.lookup scriptsBucketKey, kwargs.lookup scriptsPathKey with
  | some bucket_name, some scripts_path =>
      fetch bucket_name (scripts_path ++ parser_file_name ++ pyExt)
  | _, _ => Except.error PyExn.keyError

/-- Embeds `load_parser_from_s3` of `utils/file_manager.py`: download the
base-contract source, download the named variant's source, execute the
module, and return the class named `class_name` from it.  Every failure —
missing option keys, credential or client errors from either download, a
module load error, or the class being absent — is caught and yields `none`. -/
def load_parser_from_s3 (env : RemoteEnv) (parser_file_name class_name : Str)
    (kwargs : Options) : Option ParserClass :=
  match download_from_s3 env.fetch baseFileName kwargs with
  | Except.error _ => none
  | Except.ok _ =>
    match download_from_s3 env.fetch parser_file_name kwargs with
    | Except.error _ => none
    | Except.ok local_file_path =>
      match env.classOf local_file_path class_name with
      | Except.error _ => none
      | Except.ok copt => copt

/-- The `object` dictionary of one transformation entry; each field is a key
that may be absent (reading an absent key raises `KeyError`). -/
structure Obj where
  origin : Option Str
  destiny : Option Str
  classname : Option Str
  parser : Option Str

/-- Local-registry lookup and instantiation: the fallback branch of the
parser-creation routine.  `localReg module_name class_name` models
`importlib.import_module("parsers." + module_name)` followed by
`getattr(module, class_name)`; `none` covers both the `ImportError` and the
`AttributeError` handler, which return `None`.  A raising constructor is
caught by the generic handler, which also returns `None`. -/
def local_resolve (localReg : Str → Str → Option ParserClass)
    (module_name class_name source_file output_directory : Str)
    (options : Options) : Except PyExn ParserVal :=
  match localReg module_name class_name with
  | none => Except.ok ParserVal.vNone
  | some cls =>
    match cls.construct source_file output_directory options with
    | Except.error _ => Except.ok ParserVal.vNone
    | Except.ok p => Except.ok (ParserVal.obj p)

/-- Embeds `create_parser` of `job.runner.py`.  Reading `origin`, `destiny`
or `classname` from the object dictionary raises on a missing key; that
exception is caught and the function returns `False`.  Otherwise the class
name is converted with `camel_to_snake`, remote resolution is attempted
first, and on its failure the local registry is consulted.  A remotely
resolved class is instantiated with the source file and output directory
only — outside any handler, so a raising constructor propagates — while a
locally resolved class is instantiated with the options as well. -/
def createParser (env : RemoteEnv) (localReg : Str → Str → Option ParserClass)
    (obj : Obj) (options : Options) : Except PyExn ParserVal :=
  match obj.origin, obj.destiny, obj.classname with
  | some origin, some destiny, some parser_class_name =>
    let source_file := s3_to_local origin
    let output_directory := s3_to_local destiny
    let module_name := camel_to_snake parser_class_name
    match load_parser_from_s3 env module_name parser_class_name options with
    | none =>
        local_resolve localReg module_name parser_class_name source_file
          output_directory options
    | some cls =>
      match cls.construct source_file output_directory [] with
      | Except.error e => Except.error e
      | Except.ok p => Except.ok (ParserVal.obj p)
  | _, _, _ => Except.ok ParserVal.vFalse

/-- Attribute test on a parser instance: `hasattr(parser, name)`.  The
dispatcher member is stored separately from the remaining members, so the
test for the name `run_operation` consults that field. -/
def obj_hasattr (p : PyObj) (name : Str) : Bool :=
  if name = runOperationName then p.run_op.isSome else (p.attrs name).isSome

/-- Attribute test on any parser-creation result.  Python's `None` and
`False` expose no attribute named `run_operation`, `process`, or any
identifier used as an operation name in this system, so the test fails on
the non-instance values. -/
def pv_hasattr : ParserVal → Str → Bool
  | ParserVal.obj p, name => obj_hasattr p name
  | _, _ => false

/-- Call of the name-based dispatcher, `parser.run_operation(name)`; on a
value without that member the lookup itself raises. -/
def pv_call_run_op : ParserVal → Str → Except PyExn RV
  | ParserVal.obj p, name =>
    match p.run_op with
    | some f => f name
    | none => Except.error PyExn.attributeError
  | _, _ => Except.error PyExn.attributeError

/-- Call of a direct member, `getattr(parser, name)(**options)`: raises
`AttributeError` when the member is absent and `TypeError` when it is not
callable. -/
def pv_call_member : ParserVal → Str → Options → Except PyExn RV
  | ParserVal.obj p, name, options =>
    match p.attrs name with
    | some (Attr.callable f) => f options
    | some Attr.plain => Except.error PyExn.typeError
    | none => Except.error PyExn.attributeError
  | _, _, _ => Except.error PyExn.attributeError

/-- Embeds `execute_transformation` of `job.runner.py`.  The whole body runs
inside `try/except Exception`: a raising parser creation, dispatcher call,
member call, or default `process()` call yields the failure outcome `False`.
A `None` parser yields `False`; with the dispatcher present the result is
`result is not False`; otherwise a same-named member is called with the
options, else `process()` is called, and success is assumed unless the call
raises. -/
def execute_transformation (cr : Except PyExn ParserVal) (operation_name : Str)
    (options : Options) : Bool :=
  match cr with
  | Except.error _ => false
  | Except.ok ParserVal.vNone => false
  | Except.ok parserv =>
    if pv_hasattr parserv runOperationName then
      match pv_call_run_op parserv operation_name with
      | Except.error _ => false
      | Except.ok result => decide (result ≠ RV.pyFalse)
    else if pv_hasattr parserv operation_name then
      match pv_call_member parserv operation_name options with
      | Except.error _ => false
      | Except.ok _ => true
    else
      match pv_call_member parserv processName [] with
      | Except.error _ => false
      | Except.ok _ => true

/-- One entry of the job description: the `object` dictionary and the
optional `kwargs` mapping (read with `.get("kwargs", {})`, so absence means
the empty mapping rather than an error). -/
structure Transformation where
  object : Option Obj
  kwargs : Option Options

/-- The job definition file as seen by `run_job`: missing on disk, invalid
JSON, or a parsed document whose `transformations` key may be absent. -/
inductive JobFile where
  | missing
  | invalid
  | parsed (transformations : Option (List Transformation))

/-- Result of a whole run: the two fatal definition errors, a run aborted by
an exception outside the per-transformation boundary (with the outcomes
produced before the abort), or a completed run with all outcomes. -/
inductive RunResult where
  | fatal_missing
  | fatal_invalid
  | crashed (outcomes : List Bool)
  | completed (outcomes : List Bool)
deriving DecidableEq

/-- The loop body of `run_job` over the transformation list.  Reading the
`object` entry or its `parser` key raises `KeyError`, which is caught only
by the top-level handler and therefore aborts the remaining iterations;
otherwise `execute_transformation` produces this entry's outcome and the
loop continues.  Returns the outcomes in order and whether the loop ran to
completion. -/
def run_transformations (env : RemoteEnv)
    (localReg : Str → Str → Option ParserClass) :
    List Transformation → List Bool × Bool
  | [] => ([], true)
  | t :: rest =>
    match t.object with
    | none => ([], false)
    | some obj =>
      match obj.parser with
      | none => ([], false)
      | some operation_name =>
        let options := t.kwargs.getD []
        let success := execute_transformation
          (createParser env localReg obj options) operation_name options
        let r := run_transformations env localReg rest
        (success :: r.1, r.2)

/-- Outcome of a single well-formed entry, as computed by the loop body. -/
def entry_outcome (env : RemoteEnv)
    (localReg : Str → Str → Option ParserClass) (t : Transformation) : Bool :=
  match t.object with
  | none => false
  | some obj =>
    match obj.parser with
    | none => false
    | some operation_name =>
      let options := t.kwargs.getD []
      execute_transformation (createParser env localReg obj options)
        operation_name options

/-- Embeds `run_job` of `job.runner.py`: a missing or unparsable definition
file is fatal before any transformation runs; a document without the
`transformations` key raises at the top level; otherwise the entries are
executed strictly in order. -/
def run_job (env : RemoteEnv) (localReg : Str → Str → Option ParserClass)
    (file : JobFile) : RunResult :=
  match file with
  | JobFile.missing => RunResult.fatal_missing
  | JobFile.invalid => RunResult.fatal_invalid
  | JobFile.parsed none => RunResult.crashed []
  | JobFile.parsed (some ts) =>
    match run_transformations env localReg ts with
    | (outcomes, true) => RunResult.completed outcomes
    | (outcomes, false) => RunResult.crashed outcomes

/-- An entry is well formed when its `object` dictionary is present and has
the `parser` key, i.e. the per-iteration key reads cannot raise. -/
def wfEntry (t : Transformation) : Bool :=
  match t.object with
  | none => false
  | some obj => obj.parser.isSome

/-- A parser conforming to the base contract, for the dispatcher semantics:
the list returned by its (possibly overridden) `get_available_operations`,
and its members by name. -/
structure BaseParserModel where
  available_operations : List Str
  attrs : Str → Option Attr

/-- Default `get_available_operations` of the base contract: `['process']`. -/
def base_available_operations : List Str := [processName]

/-- Embeds `run_operation` of the base class: raise `ValueError` when the
requested name is not among the available operations; otherwise look the
member up with `getattr(self, name, None)` and, when it is present and
callable, invoke it with no arguments and return its result unchanged —
raising `NotImplementedError` when it is absent or not callable. -/
def run_operation (p : BaseParserModel) (operation_name : Str) :
    Except PyExn RV :=
  if operation_name ∉ p.available_operations then Except.error PyExn.valueError
  else
    match p.attrs operation_name with
    | some (Attr.callable f) => f []
    | _ => Except.error PyExn.notImplementedError

/-- Test for a raised result. -/
def isExn : Except PyExn RV → Bool
  | Except.error _ => true
  | Except.ok _ => false

/-- Claim C1: for every transformation spec and options mapping the executor
returns a boolean outcome and never propagates an exception: an exception
raised while creating the parser, while calling the dispatcher, while
calling a direct member, or while running the default `process()` is caught
and converted into the failure outcome `False`. -/
theorem execute_transformation_catches_all
    (cr : Except PyExn ParserVal) (operation_name : Str) (options : Options) :
    (execute_transformation cr operation_name options = true ∨
      execute_transformation cr operation_name options = false) ∧
    (∀ e, cr = Except.error e →
      execute_transformation cr operation_name options = false) ∧
    (∀ p f e, cr = Except.ok (ParserVal.obj p) → p.run_op = some f →
      f operation_name = Except.error e →
      execute_transformation cr operation_name options = false) ∧
    (∀ p g e, cr = Except.ok (ParserVal.obj p) → p.run_op = none →
      operation_name ≠ runOperationName →
      p.attrs operation_name = some (Attr.callable g) →
      g options = Except.error e →
      execute_transformation cr operation_name options = false) ∧
    (∀ p e, cr = Except.ok (ParserVal.obj p) → p.run_op = none →
      obj_hasattr p operation_name = false →
      pv_call_member (ParserVal.obj p) processName [] = Except.error e →
      execute_transformation cr operation_name options = false) := by
  refine ⟨?_, ?_, ?_, ?_, ?_⟩
  · cases execute_transformation cr operation_name options
    · exact Or.inr rfl
    · exact Or.inl rfl
  · intro e he
    subst he
    rfl
  · intro p f e he hf hcall
    subst he
    simp [execute_transformation, pv_hasattr, obj_hasattr, hf,
      pv_call_run_op, hcall]
  · intro p g e he hro hne hattr hcall
    subst he
    simp [execute_transformation, pv_hasattr, obj_hasattr, hro, hne,
      pv_call_member, hattr, hcall]
  · intro p e he hro hno hcall
    subst he
    have hno2 : obj_hasattr p runOperationName = false := by
      simp [obj_hasattr, hro]
    simp [execute_transformation, pv_hasattr, hno, hno2, hcall]

/-- Concrete parser instance whose dispatcher raises, used as witness data. -/
def failingDispatcher : PyObj :=
  { source_file := []
    output_directory := []
    init_kwargs := []
    run_op := some (fun _ => Except.error PyExn.valueError)
    attrs := fun _ => none }

/-- Witness for C1: a raised parser creation and a raising dispatcher both
yield the failure outcome `False`. -/
theorem execute_transformation_catches_all_witness :
    execute_transformation (Except.error PyExn.keyError) processName [] = false ∧
      execute_transformation (Except.ok (ParserVal.obj failingDispatcher))
        processName [] = false :=
  ⟨(execute_transformation_catches_all (Except.error PyExn.keyError)
      processName []).2.1 PyExn.keyError rfl,
    (execute_transformation_catches_all
        (Except.ok (ParserVal.obj failingDispatcher)) processName []).2.2.1
      failingDispatcher _ PyExn.valueError rfl rfl rfl⟩

/-- Claim C4: for every parser instance exposing the name-based dispatcher,
the executor dispatches exclusively through `run_operation` with the given
operation name — the outcome is exactly the dispatcher call's outcome, with
any returned value other than the explicit `False` counting as success — and
the outcome is independent of the instance's other members, so the
direct-member and default-`process` fallbacks are never taken even when a
same-named member exists. -/
theorem dispatcher_exclusive (p : PyObj) (f : Str → Except PyExn RV)
    (operation_name : Str) (options : Options) (hf : p.run_op = some f) :
    (execute_transformation (Except.ok (ParserVal.obj p)) operation_name options =
      match f operation_name with
      | Except.error _ => false
      | Except.ok result => decide (result ≠ RV.pyFalse)) ∧
    (∀ attrs2, execute_transformation
        (Except.ok (ParserVal.obj { p with attrs := attrs2 })) operation_name options =
      execute_transformation (Except.ok (ParserVal.obj p)) operation_name options) := by
  constructor
  · simp [execute_transformation, pv_hasattr, obj_hasattr, hf, pv_call_run_op]
  · intro attrs2
    simp [execute_transformation, pv_hasattr, obj_hasattr, hf, pv_call_run_op]

/-- Concrete parser instance exposing both the dispatcher and a same-named
member, used as witness data: the member would return success, but the
dispatcher returns the explicit failure value. -/
def dispatcherAndMember : PyObj :=
  { source_file := []
    output_directory := []
    init_kwargs := []
    run_op := some (fun _ => Except.ok RV.pyFalse)
    attrs := fun _ => some (Attr.callable (fun _ => Except.ok RV.pyTrue)) }

/-- Witness for C4: on an instance that has both the dispatcher and a
same-named callable member, the outcome is the dispatcher's `False`, not the
member's success. -/
theorem dispatcher_exclusive_witness :
    dispatcherAndMember.run_op = some (fun _ => Except.ok RV.pyFalse) ∧
      (execute_transformation (Except.ok (ParserVal.obj dispatcherAndMember))
          processName [] =
        match (fun _ => Except.ok RV.pyFalse : Str → Except PyExn RV) processName with
        | Except.error _ => false
        | Except.ok result => decide (result ≠ RV.pyFalse)) :=
  ⟨rfl, (dispatcher_exclusive dispatcherAndMember _ processName [] rfl).1⟩

/-- Claim C10: a missing required key in the object dictionary makes the
parser-creation routine return `False` rather than `None`, so the executor's
explicit `parser is None` guard does not catch it; the dispatch on the
boolean then finds neither the dispatcher nor the operation member, the
`process()` call on it raises, the exception is caught, and the executor
still returns the failure outcome `False`. -/
theorem createParser_false_guard_gap (env : RemoteEnv)
    (localReg : Str → Str → Option ParserClass) (obj : Obj) (options : Options)
    (operation_name : Str)
    (h : obj.origin = none ∨ obj.destiny = none ∨ obj.classname = none) :
    createParser env localReg obj options = Except.ok ParserVal.vFalse ∧
      ParserVal.vFalse ≠ ParserVal.vNone ∧
      pv_hasattr ParserVal.vFalse runOperationName = false ∧
      pv_hasattr ParserVal.vFalse operation_name = false ∧
      pv_call_member ParserVal.vFalse processName [] =
        Except.error PyExn.attributeError ∧
      execute_transformation (createParser env localReg obj options)
        operation_name options = false := by
  have hfalse : createParser env localReg obj options = Except.ok ParserVal.vFalse := by
    rcases obj with ⟨o, d, c, pr⟩
    simp only at h
    rcases h with h | h | h
    · subst h
      rfl
    · subst h
      rcases o with _ | o
      · rfl
      · rfl
    · subst h
      rcases o with _ | o <;> rcases d with _ | d <;> rfl
  refine ⟨hfalse, by simp, rfl, rfl, rfl, ?_⟩
  rw [hfalse]
  rfl

/-- Remote environment in which every fetch fails with a credentials error,
used as witness data for the failure-path claims. -/
def envNoRemote : RemoteEnv :=
  { fetch := fun _ _ => Except.error PyExn.noCredentials
    classOf := fun _ _ => Except.ok none }

/-- Empty local registry, used as witness data. -/
def noLocalReg : Str → Str → Option ParserClass := fun _ _ => none

/-- Object dictionary lacking the `classname` key, used as witness data. -/
def objMissingClassname : Obj :=
  { origin := some (strCodes ("s3://in.xml"))
    destiny := some (strCodes ("s3://out"))
    classname := none
    parser := some (strCodes ("unzip")) }

/-- Witness for C10 at a concrete object dictionary without a `classname`
key: creation yields `False` and the executor still reports failure. -/
theorem createParser_false_guard_gap_witness :
    (objMissingClassname.origin = none ∨ objMissingClassname.destiny = none ∨
        objMissingClassname.classname = none) ∧
      (createParser envNoRemote noLocalReg objMissingClassname [] =
          Except.ok ParserVal.vFalse ∧
        ParserVal.vFalse ≠ ParserVal.vNone ∧
        pv_hasattr ParserVal.vFalse runOperationName = false ∧
        pv_hasattr ParserVal.vFalse (strCodes ("unzip")) = false ∧
        pv_call_member ParserVal.vFalse processName [] =
          Except.error PyExn.attributeError ∧
        execute_transformation (createParser envNoRemote noLocalReg
            objMissingClassname []) (strCodes ("unzip")) [] = false) :=
  ⟨Or.inr (Or.inr rfl),
    createParser_false_guard_gap envNoRemote noLocalReg objMissingClassname []
      (strCodes ("unzip")) (Or.inr (Or.inr rfl))⟩

/-- Claim C8: for every parser conforming to the base contract — one whose
callable members return their success indicator rather than raising — and
every operation name, `run_operation` raises if and only if the name is not
among the declared available operations or no callable member of that name
exists; when the name is available and the member is callable, it invokes
the member and returns its result unchanged. -/
theorem run_operation_contract (p : BaseParserModel) (operation_name : Str)
    (hconf : ∀ name f, p.attrs name = some (Attr.callable f) →
      ∃ v, f [] = Except.ok v) :
    (isExn (run_operation p operation_name) = true ↔
      (operation_name ∉ p.available_operations ∨
        ∀ f, p.attrs operation_name ≠ some (Attr.callable f))) ∧
    (∀ f, operation_name ∈ p.available_operations →
      p.attrs operation_name = some (Attr.callable f) →
      run_operation p operation_name = f []) := by
  constructor
  · by_cases hm : operation_name ∈ p.available_operations
    · rcases hattr : p.attrs operation_name with _ | ⟨f⟩ | _
      · constructor
        · intro _
          exact Or.inr (fun f hf => by simp [hattr] at hf)
        · intro _
          simp [run_operation, hm, hattr, isExn]
      · rcases hconf operation_name f hattr with ⟨v, hv⟩
        constructor
        · intro hexn
          exfalso
          rw [show run_operation p operation_name = f [] from by
            simp [run_operation, hm, hattr]] at hexn
          rw [hv] at hexn
          simp [isExn] at hexn
        · rintro (h | h)
          · exact absurd hm h
          · exact absurd rfl (h f)
      · constructor
        · intro _
          exact Or.inr (fun f hf => by simp [hattr] at hf)
        · intro _
          simp [run_operation, hm, hattr, isExn]
    · constructor
      · intro _
        exact Or.inl hm
      · intro _
        simp [run_operation, hm, isExn]
  · intro f hm hattr
    simp [run_operation, hm, hattr]

/-- Name of the archive-extraction operation of the ZIP variant. -/
def unzipName : Str := strCodes ("unzip")

/-- Model of the ZIP-file variant as a base-contract parser: it declares the
single operation `unzip`, whose member extracts the archive and returns a
success indicator (the variant catches its own failures). -/
def zipModel : BaseParserModel :=
  { available_operations := [unzipName]
    attrs := fun n =>
      if n = unzipName then
        some (Attr.callable (fun _ => Except.ok RV.pyTrue))
      else none }

/-- Callable members of `zipModel` return rather than raise. -/
theorem zipModel_conf : ∀ name f,
    zipModel.attrs name = some (Attr.callable f) → ∃ v, f [] = Except.ok v := by
  intro name f hf
  simp only [zipModel] at hf
  by_cases hn : name = unzipName
  · rw [if_pos hn] at hf
    injection hf with hf2
    injection hf2 with hf3
    exact ⟨RV.pyTrue, by rw [← hf3]⟩
  · rw [if_neg hn] at hf
    cases hf

/-- Witness for C8 at the concrete ZIP variant and the name `unzip`. -/
theorem run_operation_contract_witness :
    (∀ name f, zipModel.attrs name = some (Attr.callable f) →
        ∃ v, f [] = Except.ok v) ∧
      ((isExn (run_operation zipModel unzipName) = true ↔
          (unzipName ∉ zipModel.available_operations ∨
            ∀ f, zipModel.attrs unzipName ≠ some (Attr.callable f))) ∧
        (∀ f, unzipName ∈ zipModel.available_operations →
          zipModel.attrs unzipName = some (Attr.callable f) →
          run_operation zipModel unzipName = f [])) :=
  ⟨zipModel_conf, run_operation_contract zipModel unzipName zipModel_conf⟩

/-- Claim C3: parser resolution attempts the remote registry first; whenever
remote resolution yields nothing — and it yields nothing on missing option
keys, on either download raising, on a module load error, and on the class
being absent — the creation routine performs a local-registry lookup for the
same converted module name and original class name; when remote resolution
succeeds, its class is used and the result does not depend on the local
registry at all. -/
theorem resolution_remote_first (env : RemoteEnv)
    (localReg localReg2 : Str → Str → Option ParserClass) (obj : Obj)
    (options : Options) (origin destiny cname : Str)
    (ho : obj.origin = some origin) (hd : obj.destiny = some destiny)
    (hc : obj.classname = some cname) :
    (load_parser_from_s3 env (camel_to_snake cname) cname options = none →
      createParser env localReg obj options =
        local_resolve localReg (camel_to_snake cname) cname
          (s3_to_local origin) (s3_to_local destiny) options) ∧
    (∀ cls, load_parser_from_s3 env (camel_to_snake cname) cname options = some cls →
      (createParser env localReg obj options =
        match cls.construct (s3_to_local origin) (s3_to_local destiny) [] with
        | Except.error e => Except.error e
        | Except.ok p => Except.ok (ParserVal.obj p)) ∧
      createParser env localReg obj options =
        createParser env localReg2 obj options) ∧
    (∀ pfn cn kwargs e,
      download_from_s3 env.fetch baseFileName kwargs = Except.error e →
      load_parser_from_s3 env pfn cn kwargs = none) ∧
    (∀ pfn cn kwargs e,
      download_from_s3 env.fetch pfn kwargs = Except.error e →
      load_parser_from_s3 env pfn cn kwargs = none) ∧
    (∀ pfn cn kwargs path e,
      download_from_s3 env.fetch pfn kwargs = Except.ok path →
      env.classOf path cn = Except.error e →
      load_parser_from_s3 env pfn cn kwargs = none) ∧
    (∀ pfn cn kwargs path,
      download_from_s3 env.fetch pfn kwargs = Except.ok path →
      env.classOf path cn = Except.ok none →
      load_parser_from_s3 env pfn cn kwargs = none) := by
  rcases obj with ⟨o, d, c, pr⟩
  simp only at ho hd hc
  subst ho
  subst hd
  subst hc
  refine ⟨?_, ?_, ?_, ?_, ?_, ?_⟩
  · intro hload
    simp [createParser, hload]
  · intro cls hload
    constructor
    · simp [createParser, hload]
    · simp [createParser, hload]
  · intro pfn cn kwargs e hdl
    simp [load_parser_from_s3, hdl]
  · intro pfn cn kwargs e hdl
    unfold load_parser_from_s3
    rcases download_from_s3 env.fetch baseFileName kwargs with e2 | path2
    · rfl
    · rw [hdl]
  · intro pfn cn kwargs path e hdl hcls
    unfold load_parser_from_s3
    rcases download_from_s3 env.fetch baseFileName kwargs with e2 | path2
    · rfl
    · rw [hdl]
      simp [hcls]
  · intro pfn cn kwargs path hdl hcls
    unfold load_parser_from_s3
    rcases download_from_s3 env.fetch baseFileName kwargs with e2 | path2
    · rfl
    · rw [hdl]
      simp [hcls]

/-- Object dictionary with all keys present, used as witness data. -/
def objGood : Obj :=
  { origin := some (strCodes ("s3://in.xml"))
    destiny := some (strCodes ("s3://out"))
    classname := some (strCodes ("ZipFileParser"))
    parser := some (strCodes ("unzip")) }

/-- Witness for C3: with no remote credentials and empty kwargs, remote
resolution yields nothing and creation reduces to the local-registry lookup
for the converted module name and original class name. -/
theorem resolution_remote_first_witness :
    objGood.origin = some (strCodes ("s3://in.xml")) ∧
      load_parser_from_s3 envNoRemote
        (camel_to_snake (strCodes ("ZipFileParser")))
        (strCodes ("ZipFileParser")) [] = none ∧
      createParser envNoRemote noLocalReg objGood [] =
        local_resolve noLocalReg (camel_to_snake (strCodes ("ZipFileParser")))
          (strCodes ("ZipFileParser")) (s3_to_local (strCodes ("s3://in.xml")))
          (s3_to_local (strCodes ("s3://out"))) [] :=
  ⟨rfl, rfl,
    (resolution_remote_first envNoRemote noLocalReg noLocalReg objGood []
        (strCodes ("s3://in.xml")) (strCodes ("s3://out"))
        (strCodes ("ZipFileParser")) rfl rfl rfl).1 rfl⟩

/-- Parser instance that records its construction arguments, in particular
the keyword arguments its class received. -/
def mkRecorded (s o : Str) (opts : Options) : PyObj :=
  { source_file := s
    output_directory := o
    init_kwargs := opts
    run_op := none
    attrs := fun _ => none }

/-- Parser class whose constructor stores every argument it receives. -/
def recordingClass : ParserClass :=
  { construct := fun s o opts => Except.ok (mkRecorded s o opts) }

/-- Remote environment whose downloads all succeed and whose loaded module
always provides `recordingClass`, used to observe instantiation arguments of
remotely resolved variants. -/
def envRecording : RemoteEnv :=
  { fetch := fun _ key => Except.ok key
    classOf := fun _ _ => Except.ok (some recordingClass) }

/-- Nonempty per-transformation options enabling remote resolution. -/
def optsRemote : Options :=
  [(scriptsBucketKey, strCodes ("bkt")), (scriptsPathKey, strCodes ("scripts/"))]

/-- Counterexample to C5 as stated: at this concrete input the variant is
resolved remotely and instantiated, yet its constructor receives the empty
keyword-argument mapping instead of the nonempty per-transformation options
— the creation routine passes no options in the remote branch. -/
theorem remote_instantiation_drops_options_cex :
    createParser envRecording noLocalReg objGood optsRemote =
      Except.ok (ParserVal.obj (mkRecorded
        (s3_to_local (strCodes ("s3://in.xml")))
        (s3_to_local (strCodes ("s3://out"))) [])) ∧
      (mkRecorded (s3_to_local (strCodes ("s3://in.xml")))
          (s3_to_local (strCodes ("s3://out"))) []).init_kwargs ≠ optsRemote := by
  constructor
  · rfl
  · intro h
    simp [mkRecorded, optsRemote] at h

/-- Claim C5 as amended: every successfully resolved variant is instantiated
with the resolved local source path and the resolved local output directory;
a locally resolved variant additionally receives the per-transformation
options, while a remotely resolved variant is instantiated without them
(empty keyword arguments). -/
theorem instantiation_arguments_amended (env : RemoteEnv)
    (localReg : Str → Str → Option ParserClass) (obj : Obj) (options : Options)
    (origin destiny cname : Str) (cls : ParserClass) (p : PyObj)
    (ho : obj.origin = some origin) (hd : obj.destiny = some destiny)
    (hc : obj.classname = some cname) :
    (load_parser_from_s3 env (camel_to_snake cname) cname options = some cls →
      cls.construct (s3_to_local origin) (s3_to_local destiny) [] = Except.ok p →
      createParser env localReg obj options = Except.ok (ParserVal.obj p)) ∧
    (load_parser_from_s3 env (camel_to_snake cname) cname options = none →
      localReg (camel_to_snake cname) cname = some cls →
      cls.construct (s3_to_local origin) (s3_to_local destiny) options =
        Except.ok p →
      createParser env localReg obj options = Except.ok (ParserVal.obj p)) := by
  rcases obj with ⟨o, d, c, pr⟩
  simp only at ho hd hc
  subst ho
  subst hd
  subst hc
  constructor
  · intro hload hcons
    simp [createParser, hload, hcons]
  · intro hload hreg hcons
    simp [createParser, hload, local_resolve, hreg, hcons]

/-- Local registry that always resolves to the recording class. -/
def recLocalReg : Str → Str → Option ParserClass := fun _ _ => some recordingClass

/-- Witness for the amended C5: remotely the recording class is constructed
with empty keyword arguments, locally with the full options. -/
theorem instantiation_arguments_amended_witness :
    (load_parser_from_s3 envRecording
        (camel_to_snake (strCodes ("ZipFileParser"))) (strCodes ("ZipFileParser"))
        optsRemote = some recordingClass ∧
      createParser envRecording noLocalReg objGood optsRemote =
        Except.ok (ParserVal.obj (mkRecorded
          (s3_to_local (strCodes ("s3://in.xml")))
          (s3_to_local (strCodes ("s3://out"))) []))) ∧
    (load_parser_from_s3 envNoRemote
        (camel_to_snake (strCodes ("ZipFileParser"))) (strCodes ("ZipFileParser"))
        optsRemote = none ∧
      createParser envNoRemote recLocalReg objGood optsRemote =
        Except.ok (ParserVal.obj (mkRecorded
          (s3_to_local (strCodes ("s3://in.xml")))
          (s3_to_local (strCodes ("s3://out"))) optsRemote))) :=
  ⟨⟨rfl,
      (instantiation_arguments_amended envRecording noLocalReg objGood optsRemote
          (strCodes ("s3://in.xml")) (strCodes ("s3://out"))
          (strCodes ("ZipFileParser")) recordingClass _ rfl rfl rfl).1 rfl rfl⟩,
    ⟨rfl,
      (instantiation_arguments_amended envNoRemote recLocalReg objGood optsRemote
          (strCodes ("s3://in.xml")) (strCodes ("s3://out"))
          (strCodes ("ZipFileParser")) recordingClass _ rfl rfl rfl).2 rfl rfl rfl⟩⟩

/-- On a list of well-formed entries the loop never aborts: it completes and
produces exactly the per-entry outcomes, in order. -/
theorem run_transformations_wf (env : RemoteEnv)
    (localReg : Str → Str → Option ParserClass) (ts : List Transformation)
    (h : ∀ t ∈ ts, wfEntry t = true) :
    run_transformations env localReg ts =
      (ts.map (entry_outcome env localReg), true) := by
  induction ts with
  | nil => rfl
  | cons t rest ih =>
    have ht : wfEntry t = true := h t (by simp)
    have hrec := ih (fun u hu => h u (by simp [hu]))
    unfold wfEntry at ht
    rcases htobj : t.object with _ | obj
    · rw [htobj] at ht
      simp at ht
    · rw [htobj] at ht
      simp only at ht
      rcases hp : obj.parser with _ | opname
      · rw [hp] at ht
        simp at ht
      · simp only [run_transformations, htobj, hp, hrec, List.map_cons,
          entry_outcome]

/-- The outcome of an unresolvable entry — object keys present, but the
class name resolving neither remotely nor locally — is failure. -/
theorem entry_outcome_unresolvable (env : RemoteEnv)
    (localReg : Str → Str → Option ParserClass) (t : Transformation) (objk : Obj)
    (cname opname : Str)
    (hobj : t.object = some objk) (hop : objk.parser = some opname)
    (ho : objk.origin.isSome = true) (hd : objk.destiny.isSome = true)
    (hc : objk.classname = some cname)
    (hremote : load_parser_from_s3 env (camel_to_snake cname) cname
      (t.kwargs.getD []) = none)
    (hlocal : localReg (camel_to_snake cname) cname = none) :
    entry_outcome env localReg t = false := by
  rcases Option.isSome_iff_exists.mp ho with ⟨origin, horigin⟩
  rcases Option.isSome_iff_exists.mp hd with ⟨destiny, hdestiny⟩
  have hcp : createParser env localReg objk (t.kwargs.getD []) =
      Except.ok ParserVal.vNone := by
    rcases objk with ⟨o, d, c, pr⟩
    simp only at horigin hdestiny hc
    subst horigin
    subst hdestiny
    subst hc
    simp [createParser, hremote, local_resolve, hlocal]
  simp only [entry_outcome, hobj, hop, hcp]
  rfl

/-- Claim C2: on a job whose N entries are all well formed and whose entry k
is unresolvable (unknown class name, no remote fallback), the run completes
cleanly with exactly N outcomes, outcome k is failure, and every other
entry's outcome is what it would be in any job agreeing with this one away
from k — the run neither stops early on the failure nor lets it influence
the other entries. -/
theorem run_job_isolates_failures (env : RemoteEnv)
    (localReg : Str → Str → Option ParserClass) (ts : List Transformation)
    (k : Nat) (objk : Obj) (cname : Str)
    (hwf : ∀ t ∈ ts, wfEntry t = true)
    (hk : k < ts.length)
    (hobj : ts[k].object = some objk)
    (ho : objk.origin.isSome = true) (hd : objk.destiny.isSome = true)
    (hc : objk.classname = some cname)
    (hremote : load_parser_from_s3 env (camel_to_snake cname) cname
      (ts[k].kwargs.getD []) = none)
    (hlocal : localReg (camel_to_snake cname) cname = none) :
    ((run_transformations env localReg ts).1.length = ts.length ∧
      (run_transformations env localReg ts).2 = true ∧
      run_job env localReg (JobFile.parsed (some ts)) =
        RunResult.completed (run_transformations env localReg ts).1) ∧
    (run_transformations env localReg ts).1[k]? = some false ∧
    (∀ ts2 : List Transformation,
      (∀ t ∈ ts2, wfEntry t = true) →
      (∀ j, j ≠ k → ts2[j]? = ts[j]?) →
      ∀ j, j ≠ k → (run_transformations env localReg ts2).1[j]? =
        (run_transformations env localReg ts).1[j]?) := by
  have hrun := run_transformations_wf env localReg ts hwf
  have hop : ∃ opname, objk.parser = some opname := by
    have := hwf (ts[k]) (List.getElem_mem hk)
    unfold wfEntry at this
    rw [hobj] at this
    exact Option.isSome_iff_exists.mp this
  rcases hop with ⟨opname, hop⟩
  refine ⟨⟨?_, ?_, ?_⟩, ?_, ?_⟩
  · rw [hrun]
    simp
  · rw [hrun]
  · simp [run_job, hrun]
  · rw [hrun]
    have hko : entry_outcome env localReg (ts[k]) = false :=
      entry_outcome_unresolvable env localReg (ts[k]) objk cname opname hobj hop
        ho hd hc hremote hlocal
    simp only [List.getElem?_map]
    rw [List.getElem?_eq_getElem hk]
    simp [hko]
  · intro ts2 hwf2 hagree j hj
    have hrun2 := run_transformations_wf env localReg ts2 hwf2
    rw [hrun, hrun2]
    simp only [List.getElem?_map]
    rw [hagree j hj]

/-- Object dictionary naming a class that exists in no registry. -/
def objBad : Obj :=
  { origin := some (strCodes ("s3://x.xml"))
    destiny := some (strCodes ("s3://y"))
    classname := some (strCodes ("NoSuchParserV9"))
    parser := some (strCodes ("nope")) }

/-- Transformation entry whose class name is unresolvable. -/
def tBad : Transformation := { object := some objBad, kwargs := none }

/-- One-entry job description with the unresolvable entry at index 0. -/
def jobBad : List Transformation := [tBad]

/-- Witness for C2 on the concrete job `jobBad`: every entry is well formed,
entry 0 resolves neither remotely nor locally, the run completes with one
outcome, and that outcome is failure. -/
theorem run_job_isolates_failures_witness :
    (∀ t ∈ jobBad, wfEntry t = true) ∧
      load_parser_from_s3 envNoRemote
        (camel_to_snake (strCodes ("NoSuchParserV9")))
        (strCodes ("NoSuchParserV9")) (jobBad[0].kwargs.getD []) = none ∧
      noLocalReg (camel_to_snake (strCodes ("NoSuchParserV9")))
        (strCodes ("NoSuchParserV9")) = none ∧
      (((run_transformations envNoRemote noLocalReg jobBad).1.length =
            jobBad.length ∧
          (run_transformations envNoRemote noLocalReg jobBad).2 = true ∧
          run_job envNoRemote noLocalReg (JobFile.parsed (some jobBad)) =
            RunResult.completed
              (run_transformations envNoRemote noLocalReg jobBad).1) ∧
        (run_transformations envNoRemote noLocalReg jobBad).1[0]? = some false ∧
        (∀ ts2 : List Transformation,
          (∀ t ∈ ts2, wfEntry t = true) →
          (∀ j, j ≠ 0 → ts2[j]? = jobBad[j]?) →
          ∀ j, j ≠ 0 →
            (run_transformations envNoRemote noLocalReg ts2).1[j]? =
              (run_transformations envNoRemote noLocalReg jobBad).1[j]?)) :=
  ⟨by decide, rfl, rfl,
    run_job_isolates_failures envNoRemote noLocalReg jobBad 0 objBad
      (strCodes ("NoSuchParserV9")) (by decide) (by decide) rfl rfl rfl rfl rfl
      rfl⟩
